/-
Verification of the role-binding aggregation and MFA enrollment logic of the
spaceone identity service, as a shallow embedding in Lean 4.

Embedded sources:
  - src/spaceone/identity/service/role_binding_service.py
    (RoleBindingService.create_role_binding, update_role, delete,
     _get_latest_role_type)
  - src/spaceone/identity/service/user_profile_service.py
    (UserProfileService.enable_mfa, confirm_mfa)
  - src/spaceone/identity/model/user/database.py (User, MFA)

Store lookups (user / role / workspace / role-binding records) are external
collaborators; operations receive them as already-resolved values, and the
subject user's slice of the store (their stored role_type and their role
bindings) is made an explicit state value threaded through each operation.
-/
import Mathlib

set_option maxHeartbeats 1000000

namespace Identity

/-! ## Role type aggregator (`_get_latest_role_type`, lines 307-325) -/

/-- The `priority` dict literal of `_get_latest_role_type`. -/
def rolePriorityTable : List (String × Nat) :=
  [("DOMAIN_ADMIN", 1), ("WORKSPACE_OWNER", 2), ("WORKSPACE_MEMBER", 3), ("USER", 4)]

/-- `priority.get(t, 4)`: dictionary lookup with default 4. -/
def priorityGet (t : String) : Nat :=
  match rolePriorityTable.lookup t with
  | some p => p
  | none => 4

/-- `RoleBindingService._get_latest_role_type(before, after)` (lines 307-325). -/
def get_latest_role_type (before after : String) : String :=
  if priorityGet before < priorityGet after then
    before
  else
    if after ∈ ["WORKSPACE_OWNER", "WORKSPACE_MEMBER"] then
      "USER"
    else
      after

/-- Priority order as the spec (§4.2) words it: `DOMAIN_ADMIN (1) >
WORKSPACE_OWNER (2) > WORKSPACE_MEMBER (3) > USER (4)`, unrecognized values
treated as priority 4. Stated from the spec for the refinement claim C1. -/
def priority_spec (t : String) : Nat :=
  if t = "DOMAIN_ADMIN" then 1
  else if t = "WORKSPACE_OWNER" then 2
  else if t = "WORKSPACE_MEMBER" then 3
  else 4

/-- `combine(before, after)` as the spec (§4.2) words it: return `before` when
it is strictly more privileged; otherwise collapse workspace-scoped values to
`USER`; otherwise return `after`. Stated from the spec for claim C1. -/
def combine_spec (before after : String) : String :=
  if priority_spec before < priority_spec after then before
  else if after = "WORKSPACE_OWNER" then "USER"
  else if after = "WORKSPACE_MEMBER" then "USER"
  else after

/-! ## Role binding data model and coordinator state -/

/-- A role-binding record; the fields the coordinator logic reads or writes. -/
structure RoleBinding where
  role_binding_id : String
  role_id : String
  role_type : String
  resource_group : String
  workspace_id : String
deriving DecidableEq

/-- Structured errors raised by the coordinator. -/
inductive RBError where
  /-- `ERROR_NOT_ALLOWED_ROLE_TYPE(request_role_type=..., supported_role_type=...)` -/
  | notAllowedRoleType (request_role_type : String) (supported : List String)
  /-- missing record resolved through a store -/
  | notFound
deriving DecidableEq

/-- The subject user's slice of the store: their stored aggregate `role_type`
and all of their role bindings in the domain. -/
structure SubjectUser where
  role_type : String
  bindings : List RoleBinding
deriving DecidableEq

/-- Scope-compatibility validation of `create_role_binding` (lines 77-90). -/
def create_validate (resource_group role_rt : String) : Option RBError :=
  if resource_group = "DOMAIN" then
    if role_rt ≠ "DOMAIN_ADMIN" then
      some (.notAllowedRoleType role_rt ["DOMAIN_ADMIN"])
    else
      none
  else
    if role_rt ∈ ["WORKSPACE_OWNER", "WORKSPACE_MEMBER"] then
      none
    else
      some (.notAllowedRoleType role_rt ["WORKSPACE_OWNER", "WORKSPACE_MEMBER"])

/-- `RoleBindingService.create_role_binding` (lines 56-103).  The user and the
role are resolved store records; the role's type arrives as `role_rt`.  On a
raise the state is returned unchanged (nothing was persisted yet: both writes,
lines 100 and 103, happen after validation). -/
def create_role_binding (st : SubjectUser)
    (new_id role_id role_rt resource_group workspace_id : String) :
    SubjectUser × Option RBError :=
  match create_validate resource_group role_rt with
  | some e => (st, some e)
  | none =>
    let wsid := if resource_group = "WORKSPACE" then workspace_id else "*"
    let latest := get_latest_role_type st.role_type role_rt
    ({ role_type := latest,
       bindings := st.bindings ++
         [⟨new_id, role_id, role_rt, resource_group, wsid⟩] },
     none)

/-- Role-compatibility validation of `update_role` (lines 140-152), comparing
the existing binding's type with the new role's type. -/
def update_validate (old_rt new_rt : String) : Option RBError :=
  if old_rt ∈ ["WORKSPACE_OWNER", "WORKSPACE_MEMBER"] then
    if new_rt ∈ ["WORKSPACE_OWNER", "WORKSPACE_MEMBER"] then
      none
    else
      some (.notAllowedRoleType new_rt ["WORKSPACE_OWNER", "WORKSPACE_MEMBER"])
  else if old_rt ≠ new_rt then
    some (.notAllowedRoleType new_rt [old_rt])
  else
    none

/-- `RoleBindingService.update_role` (lines 110-165).  `get_role_binding`
becomes a `find?` on the subject's bindings; the new role is a resolved store
record whose type arrives as `new_rt`.  On success the user's aggregate is
combined incrementally (line 156) and the binding's `role_id` / `role_type`
are updated in place (line 161). -/
def update_role (st : SubjectUser) (rb_id new_role_id new_rt : String) :
    SubjectUser × Option RBError :=
  match st.bindings.find? (fun rb => rb.role_binding_id == rb_id) with
  | none => (st, some .notFound)
  | some rb_vo =>
    match update_validate rb_vo.role_type new_rt with
    | some e => (st, some e)
    | none =>
      ({ role_type := get_latest_role_type st.role_type new_rt,
         bindings := st.bindings.map (fun rb =>
           if rb.role_binding_id == rb_id then
             { rb with role_id := new_role_id, role_type := new_rt }
           else rb) },
       none)

/-- `RoleBindingService.delete` (lines 172-212).  The aggregate is recomputed
from `"USER"` over every remaining binding, skipping the one being deleted
(lines 200-207, the loop with `continue`), persisted to the user, and the
binding is removed. -/
def delete_role_binding (st : SubjectUser) (rb_id : String) :
    SubjectUser × Option RBError :=
  match st.bindings.find? (fun rb => rb.role_binding_id == rb_id) with
  | none => (st, some .notFound)
  | some _ =>
    let latest := st.bindings.foldl
      (fun acc rb =>
        if rb.role_binding_id == rb_id then acc
        else get_latest_role_type acc rb.role_type)
      "USER"
    ({ role_type := latest,
       bindings := st.bindings.filter (fun rb => !(rb.role_binding_id == rb_id)) },
     none)

/-- The three binding mutations, as one step alphabet. -/
inductive RBOp where
  | create (new_id role_id role_rt resource_group workspace_id : String)
  | changeRole (rb_id new_role_id new_rt : String)
  | del (rb_id : String)

/-- Apply one mutation to the subject user's state. -/
def applyOp (st : SubjectUser) : RBOp → SubjectUser × Option RBError
  | .create a b c d e => create_role_binding st a b c d e
  | .changeRole a b c => update_role st a b c
  | .del a => delete_role_binding st a

/-- Left fold of the aggregator starting from `"USER"`: the full recomputation
that `delete` performs over the remaining bindings' role types. -/
def foldAgg (l : List String) : String :=
  l.foldl get_latest_role_type "USER"

/-- The role types a binding can acquire through the coordinator itself
(create validation admits exactly these; changeRole keeps within them). -/
abbrev assignableRoleTypes : List String :=
  ["DOMAIN_ADMIN", "WORKSPACE_OWNER", "WORKSPACE_MEMBER"]

/-- Every binding of the subject carries a coordinator-assignable role type. -/
abbrev validTypes (st : SubjectUser) : Prop :=
  ∀ rb ∈ st.bindings, rb.role_type ∈ assignableRoleTypes

/-- The stored aggregate equals the fold over the subject's bindings. -/
abbrev consistent (st : SubjectUser) : Prop :=
  st.role_type = foldAgg (st.bindings.map RoleBinding.role_type)

/-- Well-formed subject state: consistent aggregate, assignable binding types,
and store-unique binding ids. -/
abbrev wellFormed (st : SubjectUser) : Prop :=
  consistent st ∧ validTypes st ∧
    (st.bindings.map RoleBinding.role_binding_id).Nodup

/-- A `create` must be given a store-fresh binding id (ids are generated by
the store, `TODO: check duplication` notwithstanding); the other mutations
need nothing. -/
abbrev opFresh (op : RBOp) (st : SubjectUser) : Prop :=
  match op with
  | .create new_id _ _ _ _ => ∀ rb ∈ st.bindings, rb.role_binding_id ≠ new_id
  | _ => True

/-! ## MFA data model and state machine (user_profile_service.py) -/

/-- The `MFA` embedded document (model/user/database.py lines 5-13): `state`
defaults to `"DISABLED"`, `mfa_type` has no default (absent = Python `None`),
`options` is a dict (absent = empty). -/
structure MFARec where
  state : String
  mfa_type : Option String
  options : List (String × String)
deriving DecidableEq

/-- The slice of the `User` document the MFA flows touch: `mfa` is an optional
embedded document (`user_vo.mfa` is `None` when never set). -/
structure UserRec where
  user_id : String
  domain_id : String
  mfa : Option MFARec
deriving DecidableEq

/-- Errors raisable by the MFA flows.  `attributeError` is not a structured
service error: it models the uncaught Python `AttributeError` raised by an
attribute access on `None`. -/
inductive MfaError where
  | requiredParameter (key : String)
  | mfaAlreadyEnabled
  | mfaAlreadyDisabled
  | mfaNotEnabled
  | notSupportedMfaType
  | invalidVerifyCode
  | attributeError
deriving DecidableEq

/-- `user_mfa.get("state", "DISABLED")` over the optional sub-record. -/
def mfaStateOf (u : UserRec) : String :=
  match u.mfa with
  | some m => m.state
  | none => "DISABLED"

/-- `UserProfileService.enable_mfa` (lines 192-233), returning the post-state
together with the raised error, if any; the user write (line 229) happens only
on the fully validated path, so every raise leaves the state unchanged.
`MFAManager.get_manager_by_mfa_type` (line 222) is an external collaborator;
per the spec only the `EMAIL` strategy is registered, and a non-`EMAIL` type
fails with `NotSupportedMfaType` either there or at line 231 — both are
embedded as the same error. -/
def enable_mfa (u : UserRec) (mfa_type : String)
    (options : List (String × String)) : UserRec × Option MfaError :=
  if options = [] then
    (u, some (.requiredParameter "options"))
  else if mfaStateOf u = "ENABLED" then
    (u, some .mfaAlreadyEnabled)
  else if mfa_type = "EMAIL" then
    ({ u with mfa := some ⟨mfaStateOf u, some mfa_type, options⟩ }, none)
  else
    (u, some .notSupportedMfaType)

/-- `UserProfileService.confirm_mfa` (lines 267-306), returning the post-state
together with the raised error, if any.  Line 285 reads
`user_vo.mfa.mfa_type` without guarding `user_vo.mfa`, so a user with no MFA
sub-record raises `AttributeError` before the `MfaNotEnabled` check can fire.
The strategy's code verification (line 297) is an external collaborator,
abstracted as the boolean `verifyOk`; `get_manager_by_mfa_type` on a
non-`EMAIL` configured type fails with `NotSupportedMfaType` (modelled from
the spec: the manager registry is outside the embedded sources). -/
def confirm_mfa (u : UserRec) (verifyOk : Bool) : UserRec × Option MfaError :=
  match u.mfa with
  | none => (u, some .attributeError)
  | some m =>
    match m.mfa_type with
    | none => (u, some .mfaNotEnabled)
    | some t =>
      if t = "" then
        (u, some .mfaNotEnabled)
      else if t = "EMAIL" then
        if verifyOk then
          let user_mfa :=
            if m.state = "ENABLED" then (⟨"DISABLED", none, []⟩ : MFARec)
            else if m.state = "DISABLED" then { m with state := "ENABLED" }
            else m
          ({ u with mfa := some user_mfa }, none)
        else
          (u, some .invalidVerifyCode)
      else
        (u, some .notSupportedMfaType)

/-! ## Helper lemmas -/

/-- The four role types the aggregator's priority table recognizes. -/
abbrev recognizedRoleTypes : List String :=
  ["DOMAIN_ADMIN", "WORKSPACE_OWNER", "WORKSPACE_MEMBER", "USER"]

/-- The dict lookup with default agrees with the spec's priority order. -/
theorem priorityGet_eq (t : String) : priorityGet t = priority_spec t := by
  by_cases h1 : t = "DOMAIN_ADMIN"
  · subst h1; rfl
  by_cases h2 : t = "WORKSPACE_OWNER"
  · subst h2; rfl
  by_cases h3 : t = "WORKSPACE_MEMBER"
  · subst h3; rfl
  by_cases h4 : t = "USER"
  · subst h4; rfl
  simp [priorityGet, rolePriorityTable, List.lookup, priority_spec,
    beq_eq_false_iff_ne.mpr h1, beq_eq_false_iff_ne.mpr h2,
    beq_eq_false_iff_ne.mpr h3, beq_eq_false_iff_ne.mpr h4, h1, h2, h3, h4]

/-- One aggregator step from a seed that is `DOMAIN_ADMIN` or `USER`, fed a
recognized role type, lands on `DOMAIN_ADMIN` exactly when either side is
`DOMAIN_ADMIN`, and on `USER` otherwise. -/
theorem combine_step (acc t : String)
    (hacc : acc = "DOMAIN_ADMIN" ∨ acc = "USER")
    (ht : t ∈ recognizedRoleTypes) :
    get_latest_role_type acc t =
      if acc = "DOMAIN_ADMIN" ∨ t = "DOMAIN_ADMIN" then "DOMAIN_ADMIN"
      else "USER" := by
  simp only [recognizedRoleTypes, List.mem_cons, List.not_mem_nil, or_false] at ht
  rcases hacc with h | h <;> subst h <;>
    rcases ht with h' | h' | h' | h' <;> subst h' <;> decide

/-- Characterization of the left fold of the aggregator over lists of
recognized role types, for any seed reachable during such a fold: the fold
hits `DOMAIN_ADMIN` exactly when the seed already was `DOMAIN_ADMIN` or the
list contains it, and collapses to `USER` otherwise. -/
theorem foldl_combine_char (l : List String) :
    ∀ acc, (acc = "DOMAIN_ADMIN" ∨ acc = "USER") →
    (∀ x ∈ l, x ∈ recognizedRoleTypes) →
    l.foldl get_latest_role_type acc =
      if acc = "DOMAIN_ADMIN" ∨ "DOMAIN_ADMIN" ∈ l then "DOMAIN_ADMIN" else "USER" := by
  induction l with
  | nil =>
    intro acc hacc _
    rcases hacc with h | h <;> simp [h]
  | cons t ts ih =>
    intro acc hacc hl
    have ht := hl t (List.mem_cons_self t ts)
    have hts : ∀ x ∈ ts, x ∈ recognizedRoleTypes :=
      fun x hx => hl x (List.mem_cons_of_mem t hx)
    simp only [List.foldl_cons]
    rw [combine_step acc t hacc ht]
    by_cases hq : acc = "DOMAIN_ADMIN" ∨ t = "DOMAIN_ADMIN"
    · rw [if_pos hq, ih "DOMAIN_ADMIN" (Or.inl rfl) hts]
      have hgoal : acc = "DOMAIN_ADMIN" ∨ "DOMAIN_ADMIN" ∈ t :: ts := by
        rcases hq with h | h
        · exact Or.inl h
        · exact Or.inr (List.mem_cons.mpr (Or.inl h.symm))
      simp only [List.mem_cons] at hgoal
      simp [hgoal]
    · push_neg at hq
      rw [if_neg (by push_neg; exact hq), ih "USER" (Or.inr rfl) hts]
      simp [List.mem_cons, hq.1, Ne.symm hq.2]

/-- The fold over recognized role types seeded at `"USER"` (the recomputation
`delete` performs) is `DOMAIN_ADMIN` when the list contains it, else `"USER"`. -/
theorem foldAgg_char (l : List String)
    (hl : ∀ x ∈ l, x ∈ recognizedRoleTypes) :
    foldAgg l = if "DOMAIN_ADMIN" ∈ l then "DOMAIN_ADMIN" else "USER" := by
  unfold foldAgg
  rw [foldl_combine_char l "USER" (Or.inr rfl) hl]
  simp

/-- The skip-one loop of `delete` (lines 200-207) computes the fold over the
list with the matching ids filtered out. -/
theorem foldl_skip_eq_filter (rb_id : String) (l : List RoleBinding) :
    ∀ acc : String,
      l.foldl
        (fun a rb =>
          if rb.role_binding_id == rb_id then a
          else get_latest_role_type a rb.role_type) acc =
      ((l.filter (fun rb => !(rb.role_binding_id == rb_id))).map
        RoleBinding.role_type).foldl get_latest_role_type acc := by
  induction l with
  | nil => intro acc; rfl
  | cons rb tl ih =>
    intro acc
    simp only [List.foldl_cons, List.filter_cons]
    by_cases h : (rb.role_binding_id == rb_id) = true
    · rw [if_pos h, if_neg (by simp [h]), ih acc]
    · rw [if_neg h, if_pos (by simp_all), List.map_cons, List.foldl_cons,
        ih (get_latest_role_type acc rb.role_type)]

/-- Coordinator-assignable role types are recognized by the priority table. -/
theorem assignable_sub_recognized {x : String} (h : x ∈ assignableRoleTypes) :
    x ∈ recognizedRoleTypes := by
  simp only [assignableRoleTypes, List.mem_cons, List.not_mem_nil, or_false] at h
  simp only [recognizedRoleTypes, List.mem_cons]
  tauto

/-- Appending one binding's type folds as one incremental combine — why
`create` (line 97) and the fold agree. -/
theorem foldAgg_append_one (tl : List String) (t : String) :
    foldAgg (tl ++ [t]) = get_latest_role_type (foldAgg tl) t := by
  simp [foldAgg, List.foldl_append]

/-! ## Claim theorems -/

/-- C1: for every pair of role-type strings `(before, after)`, the aggregator
`_get_latest_role_type` returns `before` when `priority(before) <
priority(after)` under the order `DOMAIN_ADMIN(1) > WORKSPACE_OWNER(2) >
WORKSPACE_MEMBER(3) > USER(4)`; otherwise returns `"USER"` when `after` is
`WORKSPACE_OWNER` or `WORKSPACE_MEMBER`; otherwise returns `after` — i.e. the
code's aggregator coincides with the spec's `combine`. -/
theorem C1_aggregator_matches_spec (before after : String) :
    get_latest_role_type before after = combine_spec before after := by
  unfold get_latest_role_type combine_spec
  rw [priorityGet_eq before, priorityGet_eq after]
  by_cases h2 : after = "WORKSPACE_OWNER" <;>
    by_cases h3 : after = "WORKSPACE_MEMBER" <;>
      simp_all [List.mem_cons]

/-- C5: a `create` call with `resource_group = DOMAIN` whose resolved role's
type is not `DOMAIN_ADMIN` fails with `NotAllowedRoleType` and leaves the
subject's state — stored `role_type` and bindings — unchanged. -/
theorem C5_domain_scope_requires_domain_admin (st : SubjectUser)
    (new_id role_id role_rt workspace_id : String)
    (h : role_rt ≠ "DOMAIN_ADMIN") :
    create_role_binding st new_id role_id role_rt "DOMAIN" workspace_id =
      (st, some (.notAllowedRoleType role_rt ["DOMAIN_ADMIN"])) := by
  unfold create_role_binding create_validate
  simp [h]

/-- Witness for C5 at a concrete input. -/
theorem C5_witness :
    create_role_binding ⟨"USER", []⟩ "rb-1" "r-1" "WORKSPACE_OWNER" "DOMAIN" "ws-1" =
      (⟨"USER", []⟩, some (.notAllowedRoleType "WORKSPACE_OWNER" ["DOMAIN_ADMIN"])) :=
  C5_domain_scope_requires_domain_admin ⟨"USER", []⟩ "rb-1" "r-1" "WORKSPACE_OWNER"
    "ws-1" (by decide)

/-- C3: `delete` recomputes the user's aggregate role type as a left fold of
the aggregator starting from `"USER"` over every remaining binding's
`role_type` (excluding the binding being deleted), persists that value, and
deleting a user's last remaining binding resets the aggregate to `"USER"`. -/
theorem C3_delete_recomputes_fold (st : SubjectUser) (rb_id : String)
    (h : (st.bindings.find? (fun rb => rb.role_binding_id == rb_id)).isSome) :
    (delete_role_binding st rb_id).2 = none ∧
    (delete_role_binding st rb_id).1.role_type =
      foldAgg ((st.bindings.filter
        (fun rb => !(rb.role_binding_id == rb_id))).map RoleBinding.role_type) ∧
    (∀ b, st.bindings = [b] → (delete_role_binding st rb_id).1.role_type = "USER") := by
  obtain ⟨rb_vo, hfind⟩ := Option.isSome_iff_exists.mp h
  have hde : delete_role_binding st rb_id =
      ({ role_type := st.bindings.foldl
           (fun acc rb =>
             if rb.role_binding_id == rb_id then acc
             else get_latest_role_type acc rb.role_type) "USER",
         bindings := st.bindings.filter
           (fun rb => !(rb.role_binding_id == rb_id)) }, none) := by
    unfold delete_role_binding
    rw [hfind]
  refine ⟨by rw [hde], ?_, ?_⟩
  · rw [hde, foldl_skip_eq_filter rb_id st.bindings "USER"]
    rfl
  · intro b hb
    rw [hb] at hfind
    have hmem : rb_vo ∈ [b] := List.mem_of_find?_eq_some hfind
    have hpred := List.find?_some hfind
    have hb_eq : rb_vo = b := by simpa using hmem
    subst hb_eq
    rw [hde]
    simp only [hb, List.foldl_cons, List.foldl_nil]
    rw [if_pos hpred]

/-- Witness for C3 at a concrete input: deleting a user's only binding resets
the stored aggregate to `"USER"`. -/
theorem C3_witness :
    (delete_role_binding
      ⟨"USER", [⟨"rb-1", "r-1", "WORKSPACE_OWNER", "WORKSPACE", "ws-1"⟩]⟩
      "rb-1").1.role_type = "USER" :=
  (C3_delete_recomputes_fold
    ⟨"USER", [⟨"rb-1", "r-1", "WORKSPACE_OWNER", "WORKSPACE", "ws-1"⟩]⟩
    "rb-1" (by decide)).2.2
    ⟨"rb-1", "r-1", "WORKSPACE_OWNER", "WORKSPACE", "ws-1"⟩ rfl

/-- C7: `changeRole` validation — when the existing binding's `role_type` is
`WORKSPACE_OWNER` or `WORKSPACE_MEMBER` the new role's type must also be one
of those two, otherwise the new role's type must exactly equal the existing
binding's `role_type`; every other combination fails, and the only
non-`NotFound` failure `update_role` produces is `NotAllowedRoleType`. -/
theorem C7_change_role_validation (st : SubjectUser)
    (rb_id new_role_id new_rt : String) (rb_vo : RoleBinding)
    (hfind : st.bindings.find? (fun rb => rb.role_binding_id == rb_id) = some rb_vo) :
    ((update_role st rb_id new_role_id new_rt).2 = none ↔
      ((rb_vo.role_type ∈ ["WORKSPACE_OWNER", "WORKSPACE_MEMBER"] ∧
        new_rt ∈ ["WORKSPACE_OWNER", "WORKSPACE_MEMBER"]) ∨
       (rb_vo.role_type ∉ ["WORKSPACE_OWNER", "WORKSPACE_MEMBER"] ∧
        new_rt = rb_vo.role_type))) ∧
    ∀ e, (update_role st rb_id new_role_id new_rt).2 = some e →
      ∃ rt supported, e = .notAllowedRoleType rt supported := by
  have hsnd : (update_role st rb_id new_role_id new_rt).2 =
      update_validate rb_vo.role_type new_rt := by
    unfold update_role
    rw [hfind]
    dsimp only
    cases update_validate rb_vo.role_type new_rt <;> rfl
  rw [hsnd]
  constructor
  · unfold update_validate
    by_cases h1 : rb_vo.role_type ∈ ["WORKSPACE_OWNER", "WORKSPACE_MEMBER"]
    · by_cases h2 : new_rt ∈ ["WORKSPACE_OWNER", "WORKSPACE_MEMBER"] <;>
        simp [h1, h2]
    · by_cases h3 : rb_vo.role_type = new_rt
      · simp [h1, h3]
        tauto
      · simp [h1, h3, Ne.symm h3]
  · intro e he
    unfold update_validate at he
    split at he
    · split at he
      · exact absurd he (by simp)
      · simp only [Option.some.injEq] at he
        exact ⟨_, _, he.symm⟩
    · split at he
      · simp only [Option.some.injEq] at he
        exact ⟨_, _, he.symm⟩
      · exact absurd he (by simp)

/-- Witness for C7 at a concrete input: re-pointing a `WORKSPACE_MEMBER`
binding to a `WORKSPACE_OWNER` role passes validation. -/
theorem C7_witness :
    (update_role ⟨"USER", [⟨"rb-1", "r-1", "WORKSPACE_MEMBER", "WORKSPACE", "ws-1"⟩]⟩
        "rb-1" "r-2" "WORKSPACE_OWNER").2 = none :=
  (C7_change_role_validation
    ⟨"USER", [⟨"rb-1", "r-1", "WORKSPACE_MEMBER", "WORKSPACE", "ws-1"⟩]⟩
    "rb-1" "r-2" "WORKSPACE_OWNER"
    ⟨"rb-1", "r-1", "WORKSPACE_MEMBER", "WORKSPACE", "ws-1"⟩ rfl).1.mpr
    (by decide)

/-- C9: over remaining-binding role types drawn from `{DOMAIN_ADMIN,
WORKSPACE_OWNER, WORKSPACE_MEMBER}`, the aggregate `delete` recomputes (the
left fold of the aggregator from `"USER"`) is `DOMAIN_ADMIN` when at least one
binding is `DOMAIN_ADMIN` and `"USER"` otherwise; it is never
`WORKSPACE_OWNER` or `WORKSPACE_MEMBER`. -/
theorem C9_recompute_domain_admin_or_user (l : List String)
    (hl : ∀ x ∈ l, x ∈ assignableRoleTypes) :
    ("DOMAIN_ADMIN" ∈ l → foldAgg l = "DOMAIN_ADMIN") ∧
    ("DOMAIN_ADMIN" ∉ l → foldAgg l = "USER") ∧
    foldAgg l ≠ "WORKSPACE_OWNER" ∧ foldAgg l ≠ "WORKSPACE_MEMBER" := by
  have hl4 : ∀ x ∈ l, x ∈ recognizedRoleTypes := by
    intro x hx
    have hx3 := hl x hx
    simp only [assignableRoleTypes, List.mem_cons, List.not_mem_nil, or_false] at hx3
    simp only [recognizedRoleTypes, List.mem_cons]
    tauto
  rw [foldAgg_char l hl4]
  by_cases hDA : "DOMAIN_ADMIN" ∈ l <;> simp [hDA]

/-- Witness for C9 at a concrete input: two workspace bindings recompute to
`"USER"`. -/
theorem C9_witness :
    foldAgg ["WORKSPACE_OWNER", "WORKSPACE_MEMBER"] = "USER" :=
  (C9_recompute_domain_admin_or_user ["WORKSPACE_OWNER", "WORKSPACE_MEMBER"]
    (by decide)).2.1 (by decide)

/-- C2 counterexample state: an account whose stored `role_type` is
`SYSTEM_ADMIN` (set outside the binding mechanism; `SYSTEM_ADMIN` is a legal
`User.role_type` choice) holding one workspace binding. -/
def sysAdminState : SubjectUser :=
  ⟨"SYSTEM_ADMIN", [⟨"rb-1", "r-1", "WORKSPACE_OWNER", "WORKSPACE", "ws-1"⟩]⟩

/-- C2 counterexample: deleting the last binding of an account whose stored
`role_type` is `SYSTEM_ADMIN` succeeds and stores `"USER"` — the privileged
type carried outside the binding mechanism is not kept, contrary to the
claim's exception clause. -/
theorem C2_counterexample :
    (delete_role_binding sysAdminState "rb-1").2 = none ∧
    (delete_role_binding sysAdminState "rb-1").1.bindings = [] ∧
    (delete_role_binding sysAdminState "rb-1").1.role_type = "USER" ∧
    sysAdminState.role_type = "SYSTEM_ADMIN" := by
  decide

/-- C2 (amended): after every successful binding mutation starting from a
well-formed state — stored `role_type` equal to the aggregator folded over the
active bindings, binding types coordinator-assignable, binding ids unique,
and a fresh id supplied to `create` — the stored `role_type` again equals the
fold over the remaining active bindings (`"USER"` when none remain), with no
exception for privileged accounts: the mutation overwrites the stored value
unconditionally. -/
theorem C2_invariant_preserved (st st' : SubjectUser) (op : RBOp)
    (hwf : wellFormed st) (hfresh : opFresh op st)
    (hstep : applyOp st op = (st', none)) :
    wellFormed st' := by
  obtain ⟨hcons, hvalid, hnodup⟩ := hwf
  cases op with
  | create new_id role_id role_rt rg ws =>
    simp only [applyOp, create_role_binding] at hstep
    split at hstep
    · exact absurd (congrArg Prod.snd hstep) (by simp)
    · rename_i hv
      rw [Prod.mk.injEq] at hstep
      obtain ⟨h1, -⟩ := hstep
      subst h1
      have hrt : role_rt ∈ assignableRoleTypes := by
        unfold create_validate at hv
        split at hv
        · split at hv
          · exact absurd hv (by simp)
          · rename_i hda
            push_neg at hda
            simp [assignableRoleTypes, hda]
        · split at hv
          · rename_i hmem
            simp only [List.mem_cons, List.not_mem_nil, or_false] at hmem
            simp only [assignableRoleTypes, List.mem_cons]
            tauto
          · exact absurd hv (by simp)
      refine ⟨?_, ?_, ?_⟩
      · show get_latest_role_type st.role_type role_rt = foldAgg _
        dsimp only
        rw [List.map_append, List.map_cons, List.map_nil, foldAgg_append_one, hcons]
      · intro rb hrb
        dsimp only at hrb
        rcases List.mem_append.mp hrb with h | h
        · exact hvalid rb h
        · simp only [List.mem_singleton] at h
          subst h
          exact hrt
      · dsimp only
        rw [List.map_append, List.map_cons, List.map_nil, List.nodup_append]
        refine ⟨hnodup, by simp, ?_⟩
        intro x hx hx'
        simp only [List.mem_singleton] at hx'
        subst hx'
        obtain ⟨rb0, hrb0, hrb0id⟩ := List.mem_map.mp hx
        exact hfresh rb0 hrb0 hrb0id
  | changeRole rb_id nrid new_rt =>
    simp only [applyOp, update_role] at hstep
    split at hstep
    · exact absurd (congrArg Prod.snd hstep) (by simp)
    · rename_i rb_vo hfind
      split at hstep
      · exact absurd (congrArg Prod.snd hstep) (by simp)
      · rename_i hv
        rw [Prod.mk.injEq] at hstep
        obtain ⟨h1, -⟩ := hstep
        subst h1
        have hmem : rb_vo ∈ st.bindings := List.mem_of_find?_eq_some hfind
        have hpred : rb_vo.role_binding_id = rb_id := by
          have hp := List.find?_some hfind
          simpa using hp
        have hold : rb_vo.role_type ∈ assignableRoleTypes := hvalid rb_vo hmem
        have hcases :
            (rb_vo.role_type ∈ ["WORKSPACE_OWNER", "WORKSPACE_MEMBER"] ∧
              new_rt ∈ ["WORKSPACE_OWNER", "WORKSPACE_MEMBER"]) ∨
            (rb_vo.role_type ∉ ["WORKSPACE_OWNER", "WORKSPACE_MEMBER"] ∧
              rb_vo.role_type = new_rt) := by
          unfold update_validate at hv
          split at hv
          · split at hv
            · rename_i hP hQ
              exact Or.inl ⟨hP, hQ⟩
            · exact absurd hv (by simp)
          · split at hv
            · exact absurd hv (by simp)
            · rename_i hP hne
              push_neg at hne
              exact Or.inr ⟨hP, hne⟩
        have hnew : new_rt ∈ assignableRoleTypes := by
          rcases hcases with ⟨-, hQ⟩ | ⟨-, heq⟩
          · simp only [List.mem_cons, List.not_mem_nil, or_false] at hQ
            simp only [assignableRoleTypes, List.mem_cons]
            tauto
          · exact heq ▸ hold
        have hvalid' : ∀ rb ∈ st.bindings.map (fun rb =>
            if rb.role_binding_id == rb_id then
              { rb with role_id := nrid, role_type := new_rt }
            else rb), rb.role_type ∈ assignableRoleTypes := by
          intro rb hrb
          obtain ⟨rb0, hrb0, h0⟩ := List.mem_map.mp hrb
          subst h0
          by_cases h : rb0.role_binding_id == rb_id
          · rw [if_pos h]
            exact hnew
          · rw [if_neg h]
            exact hvalid rb0 hrb0
        have htl4 : ∀ x ∈ st.bindings.map RoleBinding.role_type,
            x ∈ recognizedRoleTypes := by
          intro x hx
          obtain ⟨rb0, h0, h0'⟩ := List.mem_map.mp hx
          exact h0' ▸ assignable_sub_recognized (hvalid rb0 h0)
        have htl4' : ∀ x ∈ (st.bindings.map (fun rb =>
            if rb.role_binding_id == rb_id then
              { rb with role_id := nrid, role_type := new_rt }
            else rb)).map RoleBinding.role_type, x ∈ recognizedRoleTypes := by
          intro x hx
          obtain ⟨rb0, h0, h0'⟩ := List.mem_map.mp hx
          exact h0' ▸ assignable_sub_recognized (hvalid' rb0 h0)
        have hkey : (("DOMAIN_ADMIN" ∈ st.bindings.map RoleBinding.role_type) ∨
            new_rt = "DOMAIN_ADMIN") ↔
            "DOMAIN_ADMIN" ∈ (st.bindings.map (fun rb =>
              if rb.role_binding_id == rb_id then
                { rb with role_id := nrid, role_type := new_rt }
              else rb)).map RoleBinding.role_type := by
          constructor
          · intro h
            rcases h with h | h
            · obtain ⟨x, hx, hxt⟩ := List.mem_map.mp h
              by_cases hxi : x.role_binding_id == rb_id
              · have hxid : x.role_binding_id = rb_vo.role_binding_id := by
                  rw [hpred]
                  exact beq_iff_eq.mp hxi
                have hxeq : x = rb_vo :=
                  List.inj_on_of_nodup_map hnodup hx hmem hxid
                subst hxeq
                rcases hcases with ⟨hP, -⟩ | ⟨-, hB⟩
                · rw [hxt] at hP
                  exact absurd hP (by decide)
                · refine List.mem_map.mpr ⟨_, List.mem_map.mpr ⟨x, hx, rfl⟩, ?_⟩
                  rw [if_pos hxi]
                  rw [hxt] at hB
                  exact hB.symm
              · refine List.mem_map.mpr ⟨_, List.mem_map.mpr ⟨x, hx, rfl⟩, ?_⟩
                rw [if_neg hxi]
                exact hxt
            · rcases hcases with ⟨hP, hQ⟩ | ⟨-, hB⟩
              · rw [h] at hQ
                exact absurd hQ (by decide)
              · refine List.mem_map.mpr ⟨_, List.mem_map.mpr ⟨rb_vo, hmem, rfl⟩, ?_⟩
                rw [if_pos (by simp [hpred])]
                exact h
          · intro h
            obtain ⟨y, hy, hyt⟩ := List.mem_map.mp h
            obtain ⟨x, hx, hxy⟩ := List.mem_map.mp hy
            subst hxy
            by_cases hxi : x.role_binding_id == rb_id
            · rw [if_pos hxi] at hyt
              exact Or.inr hyt
            · rw [if_neg hxi] at hyt
              exact Or.inl (List.mem_map.mpr ⟨x, hx, hyt⟩)
        refine ⟨?_, hvalid', ?_⟩
        · show get_latest_role_type st.role_type new_rt = foldAgg _
          dsimp only
          rw [hcons, foldAgg_char _ htl4, foldAgg_char _ htl4',
            combine_step _ _ ?hacc (assignable_sub_recognized hnew)]
          case hacc =>
            by_cases hd : "DOMAIN_ADMIN" ∈ st.bindings.map RoleBinding.role_type
            · rw [if_pos hd]
              exact Or.inl rfl
            · rw [if_neg hd]
              exact Or.inr rfl
          by_cases hd' : "DOMAIN_ADMIN" ∈ (st.bindings.map (fun rb =>
              if rb.role_binding_id == rb_id then
                { rb with role_id := nrid, role_type := new_rt }
              else rb)).map RoleBinding.role_type
          · rw [if_pos hd']
            rcases hkey.mpr hd' with h | h
            · rw [if_pos h]
              simp
            · by_cases hd : "DOMAIN_ADMIN" ∈ st.bindings.map RoleBinding.role_type
              · rw [if_pos hd]
                simp
              · rw [if_neg hd]
                simp [h]
          · rw [if_neg hd']
            have hno : ¬ (("DOMAIN_ADMIN" ∈ st.bindings.map RoleBinding.role_type) ∨
                new_rt = "DOMAIN_ADMIN") := fun hx => hd' (hkey.mp hx)
            push_neg at hno
            rw [if_neg hno.1]
            simp [hno.2]
        · show ((st.bindings.map _).map RoleBinding.role_binding_id).Nodup
          rw [List.map_map]
          have hmapeq : st.bindings.map (RoleBinding.role_binding_id ∘ (fun rb =>
              if rb.role_binding_id == rb_id then
                { rb with role_id := nrid, role_type := new_rt }
              else rb)) = st.bindings.map RoleBinding.role_binding_id := by
            refine List.map_congr_left ?_
            intro rb _
            by_cases h : rb.role_binding_id == rb_id
            · simp only [Function.comp_apply, if_pos h]
            · simp only [Function.comp_apply, if_neg h]
          rw [hmapeq]
          exact hnodup
  | del rb_id =>
    simp only [applyOp, delete_role_binding] at hstep
    split at hstep
    · exact absurd (congrArg Prod.snd hstep) (by simp)
    · rename_i rb_vo hfind
      rw [Prod.mk.injEq] at hstep
      obtain ⟨h1, -⟩ := hstep
      subst h1
      refine ⟨?_, ?_, ?_⟩
      · show _ = foldAgg _
        dsimp only
        rw [foldl_skip_eq_filter rb_id st.bindings "USER"]
        rfl
      · intro rb hrb
        exact hvalid rb (List.mem_of_mem_filter hrb)
      · exact ((List.filter_sublist st.bindings).map
          RoleBinding.role_binding_id).nodup hnodup

/-- Witness for C2 (amended) at a concrete input: creating a `DOMAIN`-scope
`DOMAIN_ADMIN` binding for a fresh `USER` account yields a well-formed state. -/
theorem C2_witness :
    wellFormed ⟨"DOMAIN_ADMIN", [⟨"rb-1", "r-1", "DOMAIN_ADMIN", "DOMAIN", "*"⟩]⟩ :=
  C2_invariant_preserved ⟨"USER", []⟩
    ⟨"DOMAIN_ADMIN", [⟨"rb-1", "r-1", "DOMAIN_ADMIN", "DOMAIN", "*"⟩]⟩
    (.create "rb-1" "r-1" "DOMAIN_ADMIN" "DOMAIN" "ws-1")
    (by exact ⟨rfl, fun rb h => absurd h (List.not_mem_nil rb), by simp⟩)
    (by intro rb hrb; cases hrb)
    (by decide)

/-- C6 counterexample: over arbitrary binding role types the recomputation is
NOT order-independent — `SYSTEM` and `SYSTEM_ADMIN` (both legal
`User.role_type` values, both priority 4 to the aggregator) fold to whichever
came last. -/
theorem C6_counterexample :
    (["SYSTEM", "SYSTEM_ADMIN"] : List String).Perm ["SYSTEM_ADMIN", "SYSTEM"] ∧
    foldAgg ["SYSTEM", "SYSTEM_ADMIN"] = "SYSTEM_ADMIN" ∧
    foldAgg ["SYSTEM_ADMIN", "SYSTEM"] = "SYSTEM" ∧
    foldAgg ["SYSTEM", "SYSTEM_ADMIN"] ≠ foldAgg ["SYSTEM_ADMIN", "SYSTEM"] := by
  refine ⟨List.Perm.swap "SYSTEM_ADMIN" "SYSTEM" [], ?_, ?_, ?_⟩ <;> decide

/-- C6 (amended): restricted to remaining bindings whose role types the
priority table recognizes (`DOMAIN_ADMIN`, `WORKSPACE_OWNER`,
`WORKSPACE_MEMBER`, `USER` — in particular every binding the coordinator
itself can create), the left fold of the aggregator from `"USER"` is invariant
under every permutation of the list. -/
theorem C6_fold_perm_invariant (l l' : List String)
    (hl : ∀ x ∈ l, x ∈ recognizedRoleTypes)
    (hperm : l.Perm l') :
    foldAgg l = foldAgg l' := by
  have hl' : ∀ x ∈ l', x ∈ recognizedRoleTypes :=
    fun x hx => hl x (hperm.symm.subset hx)
  rw [foldAgg_char l hl, foldAgg_char l' hl']
  by_cases hd : "DOMAIN_ADMIN" ∈ l
  · rw [if_pos hd, if_pos (hperm.subset hd)]
  · rw [if_neg hd, if_neg (fun h => hd (hperm.symm.subset h))]

/-- Witness for C6 (amended) at a concrete input. -/
theorem C6_witness :
    foldAgg ["WORKSPACE_OWNER", "DOMAIN_ADMIN"] =
      foldAgg ["DOMAIN_ADMIN", "WORKSPACE_OWNER"] :=
  C6_fold_perm_invariant ["WORKSPACE_OWNER", "DOMAIN_ADMIN"]
    ["DOMAIN_ADMIN", "WORKSPACE_OWNER"] (by decide)
    (List.Perm.swap "DOMAIN_ADMIN" "WORKSPACE_OWNER" [])

/-- A user with no MFA sub-record at all (`user_vo.mfa` is `None`). -/
def userNoMfa : UserRec := ⟨"u-1", "d-1", none⟩

/-- A user whose MFA sub-record exists but has no configured `mfa_type`. -/
def userMfaNoType : UserRec := ⟨"u-2", "d-1", some ⟨"DISABLED", none, []⟩⟩

/-- C4: `confirm_mfa` on a user whose sub-record exists without a configured
`mfa_type` does fail with `MfaNotEnabled`, but on a user with no MFA
sub-record at all it crashes with an uncaught `AttributeError` (line 285 reads
`user_vo.mfa.mfa_type` unguarded) instead of raising `MfaNotEnabled`; the
state is not modified in either case. -/
theorem C4_confirm_missing_record_crashes :
    (∀ verifyOk, confirm_mfa userMfaNoType verifyOk =
      (userMfaNoType, some .mfaNotEnabled)) ∧
    (∀ verifyOk, confirm_mfa userNoMfa verifyOk =
      (userNoMfa, some .attributeError)) ∧
    (∀ verifyOk, confirm_mfa userNoMfa verifyOk ≠
      (userNoMfa, some .mfaNotEnabled)) := by
  refine ⟨fun v => rfl, fun v => rfl, fun v h => ?_⟩
  have hconf : confirm_mfa userNoMfa v = (userNoMfa, some .attributeError) := rfl
  rw [hconf] at h
  exact absurd h (by decide)

/-- A user whose MFA is enrolled and confirmed (`state = ENABLED`). -/
def userMfaEnabled : UserRec :=
  ⟨"u-3", "d-1", some ⟨"ENABLED", some "EMAIL", [("email", "a@b.c")]⟩⟩

/-- C8 counterexample: `enable_mfa` on an already-`ENABLED` user with empty
`options` fails with `RequiredParameter`, not `MfaAlreadyEnabled` — the
options check (line 216) precedes the enabled check (line 219). -/
theorem C8_counterexample :
    enable_mfa userMfaEnabled "EMAIL" [] =
      (userMfaEnabled, some (.requiredParameter "options")) ∧
    (enable_mfa userMfaEnabled "EMAIL" []).2 ≠ some .mfaAlreadyEnabled := by
  decide

/-- C8 (amended): provided `options` is non-empty (otherwise
`RequiredParameter` is raised first), `enable_mfa` on a user whose current MFA
state is `ENABLED` fails with `MfaAlreadyEnabled` and returns the state
untouched; a missing MFA sub-record is treated as state `DISABLED` and passes
the already-enabled check. -/
theorem C8_enable_already_enabled (u : UserRec) (mfa_type : String)
    (options : List (String × String)) (hopts : options ≠ []) :
    (mfaStateOf u = "ENABLED" →
      enable_mfa u mfa_type options = (u, some .mfaAlreadyEnabled)) ∧
    (u.mfa = none →
      (enable_mfa u mfa_type options).2 ≠ some .mfaAlreadyEnabled) := by
  constructor
  · intro hstate
    unfold enable_mfa
    rw [if_neg hopts, if_pos hstate]
  · intro hnone
    have hstate : mfaStateOf u = "DISABLED" := by simp [mfaStateOf, hnone]
    unfold enable_mfa
    rw [if_neg hopts, if_neg (by simp [hstate])]
    by_cases he : mfa_type = "EMAIL"
    · rw [if_pos he]
      simp
    · rw [if_neg he]
      simp

/-- Witness for C8 (amended) at a concrete input. -/
theorem C8_witness :
    enable_mfa userMfaEnabled "EMAIL" [("email", "a@b.c")] =
      (userMfaEnabled, some .mfaAlreadyEnabled) :=
  (C8_enable_already_enabled userMfaEnabled "EMAIL" [("email", "a@b.c")]
    (by decide)).1 rfl

/-- C10: when `confirm_mfa` succeeds (configured `EMAIL` type, verification
passes) on a user whose MFA state is `ENABLED`, the stored sub-record is
replaced by `{state: DISABLED}` alone — `mfa_type` and `options` are
discarded (line 300 rebinds the whole dict); when it succeeds on state
`DISABLED`, only `state` flips to `ENABLED` and `mfa_type` / `options` are
kept (line 302 mutates one key). -/
theorem C10_confirm_toggle (u : UserRec) (m : MFARec)
    (hm : u.mfa = some m) (ht : m.mfa_type = some "EMAIL") :
    (m.state = "ENABLED" →
      confirm_mfa u true =
        ({ u with mfa := some ⟨"DISABLED", none, []⟩ }, none)) ∧
    (m.state = "DISABLED" →
      confirm_mfa u true =
        ({ u with mfa := some { m with state := "ENABLED" } }, none)) := by
  have hred : confirm_mfa u true =
      ({ u with mfa := some (
          if m.state = "ENABLED" then (⟨"DISABLED", none, []⟩ : MFARec)
          else if m.state = "DISABLED" then { m with state := "ENABLED" }
          else m) }, none) := by
    unfold confirm_mfa
    rw [hm]
    dsimp only
    rw [ht]
    dsimp only
    rw [if_neg (by decide), if_pos rfl, if_pos rfl]
  constructor
  · intro hstate
    rw [hred, if_pos hstate]
  · intro hstate
    rw [hred, if_neg (by simp [hstate]), if_pos hstate]

/-- A user enrolled in EMAIL MFA but not yet confirmed (`state = DISABLED`). -/
def userMfaDisabledEmail : UserRec :=
  ⟨"u-4", "d-1", some ⟨"DISABLED", some "EMAIL", [("email", "a@b.c")]⟩⟩

/-- Witness for C10 at a concrete input: confirming from `DISABLED` flips only
the state and keeps `mfa_type` and `options`. -/
theorem C10_witness :
    confirm_mfa userMfaDisabledEmail true =
      ({ userMfaDisabledEmail with
          mfa := some ⟨"ENABLED", some "EMAIL", [("email", "a@b.c")]⟩ }, none) :=
  (C10_confirm_toggle userMfaDisabledEmail
    ⟨"DISABLED", some "EMAIL", [("email", "a@b.c")]⟩ rfl rfl).2 rfl

end Identity
